import Mathlib

/-!
Verification of the eudoxys/cache repository (src/cache/cache.py and
src/cache/cli.py) against its natural-language specification.

The embedding models the dynamically typed Python arguments with `PyVal`,
the relevant filesystem state with `FS` (a log of created directories and
existing files) and `FsNode` (a directory tree with per-file read-only
flags), and translates, function by function:

  - `os.path.join` / `os.path.dirname` (posixpath) as `osJoin` / `osDirname`;
  - `Cache.__init__` as `mkCache` (assertions, path coercion, root
    resolution, space normalization, `path[-1]`, `os.makedirs`);
  - `Cache.cachedir` as `cachedirFn`;
  - `Cache.delete` as `cacheDelete` over `os.remove`;
  - `Cache.clear` as `cacheClear` (the arguments it passes to
    `shutil.rmtree`) together with `rmEntry` (the CPython `rmtree` walk,
    including the rule that `ignore_errors=True` replaces the `onexc`
    handler by a no-op);
  - the `clear` branch of `cli.main` as `cliClearMain`;
  - the `size` branch's byte formatting as `formatSize`.

Python floats appear only as the `version` argument (carried with their
string rendering) and in the size formatting, where the quotients by
powers of ten are rendered with exact decimal arithmetic; this agrees
with IEEE double formatting on every quantity the claims mention.
-/

namespace EudoxysCache

/-- Python values that can reach the Cache API boundary: `None`, `str`,
`int`, `float` (carried together with its decimal rendering, since the
claims never compute with float values) and `list`. -/
inductive PyVal where
| none
| str (s : String)
| int (n : Int)
| float (repr : String)
| list (xs : List PyVal)

/-- Test for `isinstance(x, str)`. -/
def isStrV : PyVal → Bool
| .str _ => true
| _ => false

/-- Test for `x is None`. -/
def isNoneV : PyVal → Bool
| .none => true
| _ => false

/-- Test for `isinstance(x, (int, str, float, type(None)))`, the tuple used
by the version assertion in `Cache.__init__`. -/
def isIntStrFloatNone : PyVal → Bool
| .int _ => true
| .str _ => true
| .float _ => true
| .none => true
| _ => false

/-- Test for `isinstance(x, (int, str, float))` (a non-null version of an
accepted type). -/
def isNumOrStrV : PyVal → Bool
| .int _ => true
| .str _ => true
| .float _ => true
| _ => false

mutual
/-- Python `repr(x)` for the modelled values (string quoting left
unescaped; only ever applied inside list renderings, which no claim
exercises with concrete values). -/
def pyRepr : PyVal → String
| .none => "None"
| .str s => "\x27" ++ s ++ "\x27"
| .int n => toString n
| .float r => r
| .list xs => "[" ++ String.intercalate ", " (pyReprs xs) ++ "]"

/-- Renders each element of a list with `pyRepr`. -/
def pyReprs : List PyVal → List String
| [] => []
| x :: xs => pyRepr x :: pyReprs xs
end

/-- Python `str(x)`: identical to `repr(x)` except on strings, which are
returned unquoted. -/
def pyStr : PyVal → String
| .str s => s
| v => pyRepr v

/-- Python one-character test `s.startswith("/")`: the first character is
a slash. -/
def startsSlash (s : String) : Bool :=
  s.data.head? = some (Char.ofNat 47)

/-- Python one-character test `s.endswith("/")`: the last character is a
slash. -/
def endsSlash (s : String) : Bool :=
  s.data.getLast? = some (Char.ofNat 47)

/-- One step of `posixpath.join`: an absolute second component discards
the accumulated path; otherwise a separator is inserted unless the
accumulated path is empty or already ends with one. -/
def osJoin2 (a b : String) : String :=
  if startsSlash b then b
  else if a = "" || endsSlash a then a ++ b
  else a ++ "/" ++ b

/-- Model of `os.path.join(a, *ps)` (posixpath). -/
def osJoin (a : String) (ps : List String) : String :=
  ps.foldl osJoin2 a

/-- Model of `os.path.dirname(p)` (posixpath): the prefix of `p` up to and
including the last slash, with trailing slashes stripped unless the prefix
consists only of slashes. -/
def osDirname (p : String) : String :=
  let head := ((p.data.reverse.dropWhile (fun c => ¬ c = Char.ofNat 47)).reverse)
  if head.isEmpty || head.all (fun c => c = Char.ofNat 47) then ⟨head⟩
  else ⟨(head.reverse.dropWhile (fun c => c = Char.ofNat 47)).reverse⟩

/-- Model of the segment normalization `x.replace(" ", "_")` in
`Cache.__init__` (line 81): a single-character `str.replace` maps every
occurrence of the space character to an underscore. -/
def normalizeSeg (s : String) : String :=
  ⟨s.data.map (fun c => if c = ' ' then '_' else c)⟩

/-- Filesystem errors raised by the modelled operations. -/
inductive PyErr where
| assertionError
| typeError
| indexError
| fileNotFoundError
| isADirectoryError
| permissionError
deriving DecidableEq

/-- Flat filesystem state: the directories created so far (by
`os.makedirs`) and the plain files present. -/
structure FS where
  dirs : List String
  files : List String
deriving DecidableEq

/-- Empty filesystem. -/
def FS0 : FS := ⟨[], []⟩

/-- Model of `os.makedirs(d, exist_ok=True)`: records the directory
(idempotently). -/
def mkdirs (fs : FS) (d : String) : FS :=
  if d ∈ fs.dirs then fs else { fs with dirs := fs.dirs ++ [d] }

/-- Resolved cache entry: the fields set by `Cache.__init__`. -/
structure CacheObj where
  package : PyVal
  version : PyVal
  root : String
  path : List String
  name : String
  pathname : String
  dirname : String

/-- Coercion of the `path` argument by `Cache.__init__` lines 68-71: a
string becomes a one-element list, a list is mapped through `str`; any
other value fails when line 81 iterates over it. -/
def coercePath : PyVal → Except PyErr (List String)
| .str s => .ok [s]
| .list xs => .ok (xs.map pyStr)
| _ => .error .typeError

/-- Default package name, `PACKAGE = "cache"` (cache.py line 30). -/
def PACKAGE : PyVal := .str "cache"

/-- Default cache schema version, `VERSION = 0` (cache.py line 33). -/
def VERSION : PyVal := .int 0

/-- Model of `Cache.__init__(path, package, version)` against the class
cache directory `cachedir`: the two assertions (lines 59-60), the path
coercion (68-71), root resolution (73-76), space normalization (81),
`self.name = self.path[-1]` (83), `self.pathname` (86), `self.dirname`
(89) and the `os.makedirs(self.dirname, exist_ok=True)` side effect (94).
Returns the raised error or the constructed object, with the resulting
filesystem. -/
def mkCache (cachedir : String) (fs : FS) (path package version : PyVal) :
    Except PyErr CacheObj × FS :=
  if (isStrV package || isNoneV package) = false then (.error .assertionError, fs)
  else if (isNoneV package || isIntStrFloatNone version) = false then (.error .assertionError, fs)
  else
    match coercePath path with
    | .error e => (.error e, fs)
    | .ok segs0 =>
      let root := if isNoneV package then cachedir
                  else osJoin cachedir [pyStr package, pyStr version]
      let segs := segs0.map normalizeSeg
      match segs.getLast? with
      | Option.none => (.error .indexError, fs)
      | some name =>
        let pathname := osJoin root segs
        let dn := osDirname pathname
        (.ok ⟨package, version, root, segs, name, pathname, dn⟩, mkdirs fs dn)

/-- Process-wide class state of `Cache`: the current value of
`Cache.CACHEDIR` together with the filesystem. -/
structure CacheState where
  cachedir : String
  fs : FS

/-- Model of the classmethod `Cache.cachedir(*args, makedirs=True)`
(cache.py lines 96-117): with no arguments it returns the current cache
directory and touches nothing; otherwise it joins the arguments into the
new directory, optionally creates it, and returns the previous one. -/
def cachedirFn (s : CacheState) (args : List String) (makedirs : Bool) :
    String × CacheState :=
  match args with
  | [] => (s.cachedir, s)
  | a :: rest =>
    let olddir := s.cachedir
    let newdir := osJoin a rest
    (olddir, ⟨newdir, if makedirs then mkdirs s.fs newdir else s.fs⟩)

/-- Construction of a `Cache` against the class state: `Cache.__init__`
reads `cls.CACHEDIR` at construction time. -/
def mkCacheS (s : CacheState) (path package version : PyVal) :
    Except PyErr CacheObj × CacheState :=
  let r := mkCache s.cachedir s.fs path package version
  (r.1, ⟨s.cachedir, r.2⟩)

/-- Model of `os.remove(p)`: removes a plain file; a directory raises
`IsADirectoryError`, a missing path raises `FileNotFoundError`. -/
def osRemove (fs : FS) (p : String) : Except PyErr FS :=
  if p ∈ fs.files then .ok { fs with files := fs.files.erase p }
  else if p ∈ fs.dirs then .error .isADirectoryError
  else .error .fileNotFoundError

/-- Model of `Cache.delete(ignore_errors)` (cache.py lines 148-163):
`os.remove(self.pathname)` with only `FileNotFoundError` caught, and
re-raised when `ignore_errors` is false. -/
def cacheDelete (obj : CacheObj) (fs : FS) (ignore_errors : Bool) :
    Except PyErr FS :=
  match osRemove fs obj.pathname with
  | .ok fs1 => .ok fs1
  | .error .fileNotFoundError =>
      if ignore_errors then .ok fs else .error .fileNotFoundError
  | .error e => .error e

/-- Model of `Cache.exists()` (cache.py line 146): `os.path.exists` is
true for files and directories alike. -/
def cacheExists (obj : CacheObj) (fs : FS) : Bool :=
  obj.pathname ∈ fs.files || obj.pathname ∈ fs.dirs

/-- The `onexc` argument value that `Cache.clear` can pass to
`shutil.rmtree`: the local `rm_ro` handler. -/
inductive Handler where
| rmRo
deriving DecidableEq

/-- The call `Cache.clear` makes to `shutil.rmtree`: target path,
`ignore_errors` flag, and the `onexc` handler argument. -/
structure RmtreeCall where
  target : String
  ignoreErrors : Bool
  onexc : Option Handler
deriving DecidableEq

/-- Model of the argument processing of `Cache.clear(path, package,
version, clear_ro)` (cache.py lines 206-237): `path=None` becomes `[]`,
`path` must be a list of strings, and the method then invokes
`shutil.rmtree(os.path.join(cls.CACHEDIR, *path), ignore_errors=True,
onexc=rm_ro if clear_ro else None)`. The `package` and `version`
parameters are accepted but never used by the body. Returns the
`shutil.rmtree` call it performs, or the assertion error it raises. -/
def cacheClear (cachedir : String) (path : PyVal) (clear_ro : Bool) :
    Except PyErr RmtreeCall :=
  let path := if isNoneV path then PyVal.list [] else path
  match path with
  | .list xs =>
    if xs.all isStrV then
      .ok ⟨osJoin cachedir (xs.map pyStr), true,
           if clear_ro then some Handler.rmRo else Option.none⟩
    else .error .assertionError
  | _ => .error .assertionError

/-- Directory tree under the target of a `shutil.rmtree` call; each file
carries its read-only attribute, and removal of a file fails exactly when
it is read-only. -/
inductive FsNode where
| file (ro : Bool)
| dir (children : List (String × FsNode))

/-- Effective error handler inside CPython `shutil.rmtree`. -/
inductive EffHandler where
| noop
| rmRo
| raiseErr
deriving DecidableEq

/-- The handler CPython `shutil.rmtree` actually runs: when
`ignore_errors` is true the passed `onexc` is replaced by a handler that
does nothing; when it is false and no handler was passed, errors are
re-raised. -/
def effOnexc (ignoreErrors : Bool) (onexc : Option Handler) : EffHandler :=
  if ignoreErrors then .noop
  else match onexc with
    | some .rmRo => .rmRo
    | Option.none => .raiseErr

mutual
/-- The `shutil.rmtree` walk over one entry, with the effective handler
`h`: a non-read-only file is removed; a read-only file's removal fails
and is given to the handler (`noop` leaves it, `rmRo` models the `rm_ro`
helper of `Cache.clear`: `os.chmod(path, stat.S_IWRITE)` then a retry of
the removal, which then succeeds; `raiseErr` propagates). A directory's
children are walked first; `os.rmdir` then fails if entries remain, and
that failure is given to the handler likewise (for `rmRo` the retried
`rmdir` fails again and the exception escapes the handler). Returns the
surviving entry, if any. -/
def rmEntry (h : EffHandler) : FsNode → Except PyErr (Option FsNode)
| .file ro =>
    if ro = false then .ok Option.none
    else match h with
      | .noop => .ok (some (.file true))
      | .rmRo => .ok Option.none
      | .raiseErr => .error .permissionError
| .dir cs =>
    match rmChildren h cs with
    | .error e => .error e
    | .ok cs1 =>
      if cs1.isEmpty then .ok Option.none
      else match h with
        | .noop => .ok (some (.dir cs1))
        | .rmRo => .error .permissionError
        | .raiseErr => .error .permissionError

/-- The walk over a directory's children, in order, keeping survivors. -/
def rmChildren (h : EffHandler) :
    List (String × FsNode) → Except PyErr (List (String × FsNode))
| [] => .ok []
| (n, c) :: rest =>
    match rmEntry h c with
    | .error e => .error e
    | .ok Option.none => rmChildren h rest
    | .ok (some c1) =>
      match rmChildren h rest with
      | .error e => .error e
      | .ok rest1 => .ok ((n, c1) :: rest1)
end

/-- Composition of `Cache.clear` with the `shutil.rmtree` walk: `tree` is
the directory at the target path; the walk runs with the handler CPython
derives from the `ignore_errors`/`onexc` arguments of the call. -/
def runClear (cachedir : String) (path : PyVal) (clear_ro : Bool)
    (tree : FsNode) : Except PyErr (Option FsNode) :=
  match cacheClear cachedir path clear_ro with
  | .error e => .error e
  | .ok call => rmEntry (effOnexc call.ignoreErrors call.onexc) tree

/-- Exit code on success (cli.py line 10). -/
def E_OK : Nat := 0

/-- Exit code on failure (cli.py line 13). -/
def E_FAILED : Nat := 1

/-- Model of the `clear` branch of `cli.main` (cli.py lines 84-91 and the
top-level handler at lines 133-139): the cache directory is set from
`args.cachedir`, then `Cache.clear(args.package)` is invoked — the
`--path` argument (`pathArg`) is never consulted by this branch — and
`E_OK` is returned; an exception is re-raised under `--debug` and
otherwise printed, with `E_FAILED` returned. The result carries the exit
code and the `shutil.rmtree` call made, if any. -/
def cliClearMain (s : CacheState) (cachedirArg : String)
    (packageArg : Option String) (pathArg : String) (debug : Bool) :
    Except PyErr (Nat × Option RmtreeCall) × CacheState :=
  let _ := pathArg
  let s1 := (cachedirFn s [cachedirArg] true).2
  let pkg := match packageArg with
    | Option.none => PyVal.none
    | some p => PyVal.str p
  match cacheClear s1.cachedir pkg true with
  | .ok call => (.ok (E_OK, some call), s1)
  | .error e =>
      if debug then (.error e, s1) else (.ok (E_FAILED, Option.none), s1)

/-- Banker's rounding of the rational `num / den` to an integer, as the
decimal value printed by a `%.3f`-style conversion (round half to even). -/
def roundHalfEven (num den : Nat) : Nat :=
  let q := num / den
  let r := num % den
  if den < 2 * r then q + 1
  else if 2 * r < den then q
  else if q % 2 = 0 then q else q + 1

/-- Zero-padding of a fractional part to three digits. -/
def pad3 (k : Nat) : String :=
  if k < 10 then "00" ++ toString k
  else if k < 100 then "0" ++ toString k
  else toString k

/-- Rendering of `n / den` with exactly three decimals, as Python's
`f"{n/den:.3f}"` does for the quantities the size command prints (exact
decimal arithmetic; it agrees with IEEE double formatting whenever the
quotient needs at most three decimals, as in every instance the
specification names). -/
def fixed3 (n den : Nat) : String :=
  let m := roundHalfEven (n * 1000) den
  toString (m / 1000) ++ "." ++ pad3 (m % 1000)

/-- Model of the byte-count formatting of the `size` branch of `cli.main`
(cli.py lines 100-109): decimal thresholds at 1000, 1e6, 1e9 and 1e12
with suffixes `B`, `kB`, `MB`, `GB`, `TB`. -/
def formatSize (n : Nat) : String :=
  if n < 1000 then toString n ++ " B"
  else if n < 1000000 then fixed3 n 1000 ++ " kB"
  else if n < 1000000000 then fixed3 n 1000000 ++ " MB"
  else if n < 1000000000000 then fixed3 n 1000000000 ++ " GB"
  else fixed3 n 1000000000000 ++ " TB"

/-- Whether cache construction succeeded. -/
def isOkResult : Except PyErr CacheObj → Bool
| .ok _ => true
| .error _ => false

lemma pyStr_str (s : String) : pyStr (.str s) = s := rfl

lemma map_pyStr_str (segs : List String) :
    (segs.map PyVal.str).map pyStr = segs := by
  induction segs with
  | nil => rfl
  | cons s t ih => simp [pyStr, ih]

/-- Unfolding of `mkCache` for a non-null string package, a well-typed
version and a non-empty list of string segments. -/
lemma mkCache_str (cachedir : String) (fs : FS) (segs : List String)
    (p : String) (ver : PyVal) (hv : isIntStrFloatNone ver = true)
    (hne : segs ≠ []) :
    ∃ obj, mkCache cachedir fs (.list (segs.map PyVal.str)) (.str p) ver =
        (.ok obj, mkdirs fs obj.dirname) ∧
      obj.package = .str p ∧ obj.version = ver ∧
      obj.root = osJoin cachedir [p, pyStr ver] ∧
      obj.path = segs.map normalizeSeg ∧
      obj.pathname =
        osJoin (osJoin cachedir [p, pyStr ver]) (segs.map normalizeSeg) := by
  have hmap : segs.map normalizeSeg ≠ [] := by
    simpa using hne
  cases hlast : (segs.map normalizeSeg).getLast? with
  | none =>
      rw [List.getLast?_eq_none_iff] at hlast
      exact absurd hlast hmap
  | some nm =>
      refine ⟨⟨.str p, ver, osJoin cachedir [p, pyStr ver],
        segs.map normalizeSeg, nm,
        osJoin (osJoin cachedir [p, pyStr ver]) (segs.map normalizeSeg),
        osDirname (osJoin (osJoin cachedir [p, pyStr ver])
          (segs.map normalizeSeg))⟩, ?_, rfl, rfl, rfl, rfl, rfl⟩
      simp [mkCache, hv, coercePath, map_pyStr_str, pyStr_str, isStrV, isNoneV,
        hlast, -List.getLast?_map, -List.map_map]

/-- Unfolding of `mkCache` for a null package and a non-empty list of
string segments: the version assertion is skipped entirely. -/
lemma mkCache_none (cachedir : String) (fs : FS) (segs : List String)
    (ver : PyVal) (hne : segs ≠ []) :
    ∃ obj, mkCache cachedir fs (.list (segs.map PyVal.str)) PyVal.none ver =
        (.ok obj, mkdirs fs obj.dirname) ∧
      obj.package = PyVal.none ∧ obj.version = ver ∧
      obj.root = cachedir ∧
      obj.path = segs.map normalizeSeg ∧
      obj.pathname = osJoin cachedir (segs.map normalizeSeg) := by
  have hmap : segs.map normalizeSeg ≠ [] := by
    simpa using hne
  cases hlast : (segs.map normalizeSeg).getLast? with
  | none =>
      rw [List.getLast?_eq_none_iff] at hlast
      exact absurd hlast hmap
  | some nm =>
      refine ⟨⟨PyVal.none, ver, cachedir, segs.map normalizeSeg, nm,
        osJoin cachedir (segs.map normalizeSeg),
        osDirname (osJoin cachedir (segs.map normalizeSeg))⟩,
        ?_, rfl, rfl, rfl, rfl, rfl⟩
      simp [mkCache, coercePath, map_pyStr_str, isStrV, isNoneV, hlast,
        -List.getLast?_map, -List.map_map]

/-- C1: the command-line `clear` branch does not pass the `--path`
argument, split on `/` or otherwise, to `Cache.clear`: it passes
`args.package` instead (cli.py line 90). With `--package p --path a/b`
the string `p` fails `Cache.clear`'s list assertion and the command exits
with `E_FAILED` (1), not 0, without calling `shutil.rmtree`; with
`--path a/b` alone it exits 0 but removes the whole cache root `/R`
rather than the requested `a/b` subtree, and the same call is made
whatever `--path` holds. -/
theorem c1_clear_ignores_path :
    (cliClearMain ⟨"/old", FS0⟩ "/R" (some "p") "a/b" false).1 =
      .ok (E_FAILED, Option.none) ∧
    (cliClearMain ⟨"/old", FS0⟩ "/R" Option.none "a/b" false).1 =
      .ok (E_OK, some ⟨"/R", true, some Handler.rmRo⟩) ∧
    (cliClearMain ⟨"/old", FS0⟩ "/R" Option.none "a/b" false).1 =
      (cliClearMain ⟨"/old", FS0⟩ "/R" Option.none "c/d" false).1 := by
  exact ⟨rfl, rfl, rfl⟩

/-- Directory containing a single read-only file, the input on which the
advertised read-only handling of `Cache.clear` would have to act. -/
def roTree : FsNode := .dir [("f", .file true)]

/-- Directory containing a read-only file and an ordinary file. -/
def roMixTree : FsNode := .dir [("f", .file true), ("g", .file false)]

/-- C2: `Cache.clear` passes `ignore_errors=True` to `shutil.rmtree`, and
CPython then replaces the `onexc` handler by a no-op, so the `rm_ro`
handler never runs: a read-only file is neither chmod-ed nor retried and
survives the clear with its attribute intact (first two conjuncts, with
and without a sibling that is removed — the walk does continue); had the
handler been effective, as the claim and the `clear_ro` docstring state,
the file would have been removed (last conjunct). -/
theorem c2_clear_readonly_never_retried :
    runClear "/R" (.list []) true roTree = .ok (some roTree) ∧
    runClear "/R" (.list []) true roMixTree =
      .ok (some (.dir [("f", .file true)])) ∧
    rmEntry EffHandler.rmRo roTree = .ok Option.none := by
  exact ⟨rfl, rfl, rfl⟩

/-- C3 counterexample: with a null package and `version=[]` — a list,
hence non-null and not one of string/integer/float — construction
succeeds instead of failing with an invalid-argument error: the version
assertion on cache.py line 60 is short-circuited by `package is None`. -/
theorem c3_counterexample :
    isNumOrStrV (PyVal.list []) = false ∧
    isNoneV (PyVal.list []) = false ∧
    isOkResult
      (mkCache "/R" FS0 (.list [.str "f.csv"]) PyVal.none (.list [])).1 =
      true := by
  exact ⟨rfl, rfl, rfl⟩

/-- Invalid-argument condition actually enforced by `Cache.__init__`
(cache.py lines 59-60): the package must be a string or null, and the
version type is checked only when the package is non-null. -/
def invalidArgs (package version : PyVal) : Bool :=
  (!isStrV package && !isNoneV package) ||
  (!isNoneV package && !isNoneV version && !isNumOrStrV version)

/-- C3 (amended): construction fails with an invalid-argument error iff
the package is non-null and not a string, or the package is non-null and
the version is non-null and not one of string, integer, or float; when
the package is null the version is not checked, and no other input —
path segments included, all being convertible to string — raises this
error. -/
theorem c3_invalid_argument_iff (cachedir : String) (fs : FS)
    (path package version : PyVal) :
    (mkCache cachedir fs path package version).1 = .error .assertionError ↔
      invalidArgs package version = true := by
  have hnoass : ∀ (root : String) (segs : List String),
      ((match segs.getLast? with
        | Option.none => ((.error .indexError : Except PyErr CacheObj), fs)
        | some name =>
          (.ok ⟨package, version, root, segs, name, osJoin root segs,
            osDirname (osJoin root segs)⟩,
           mkdirs fs (osDirname (osJoin root segs)))).1 ≠
        .error .assertionError) := by
    intro root segs
    cases segs.getLast? with
    | none => simp
    | some nm => simp
  constructor
  · intro h
    by_contra hinv
    cases package <;> cases version <;>
      simp [invalidArgs, isStrV, isNoneV, isNumOrStrV] at hinv <;>
      cases path <;>
      simp [mkCache, isStrV, isNoneV, isIntStrFloatNone, coercePath,
        -List.getLast?_map, -List.map_map] at h <;>
      exact hnoass _ _ h
  · intro h
    cases package <;> cases version <;>
      simp [invalidArgs, isStrV, isNoneV, isNumOrStrV] at h <;>
      simp [mkCache, isStrV, isNoneV, isIntStrFloatNone]

/-- C10: constructing a cache entry with an empty segment list and
otherwise accepted package/version arguments fails with the
index-out-of-range error raised by `self.path[-1]` (cache.py line 83),
and the filesystem comes back exactly as it was: the failure happens
before the `os.makedirs` call on line 94. -/
theorem c10_empty_path_fails_before_mkdir (cachedir : String) (fs : FS)
    (package version : PyVal)
    (hp : (isStrV package || isNoneV package) = true)
    (hv : (isNoneV package || isIntStrFloatNone version) = true) :
    mkCache cachedir fs (.list []) package version = (.error .indexError, fs) := by
  simp [mkCache, hp, hv, coercePath]

/-- Witness for C10 at the default package and version. -/
theorem c10_witness :
    mkCache "/R" FS0 (.list []) PACKAGE VERSION = (.error .indexError, FS0) :=
  c10_empty_path_fails_before_mkdir "/R" FS0 PACKAGE VERSION rfl rfl

lemma osJoin_append (a : String) (l1 l2 : List String) :
    osJoin a (l1 ++ l2) = osJoin (osJoin a l1) l2 :=
  List.foldl_append osJoin2 a l1 l2

lemma map_id_of_eq_self {α : Type} (f : α → α) (l : List α)
    (h : ∀ x ∈ l, f x = x) : l.map f = l := by
  induction l with
  | nil => rfl
  | cons a t ih =>
      simp only [List.map_cons, h a (by simp)]
      rw [ih (fun x hx => h x (by simp [hx]))]

lemma normalizeSeg_eq_self_of_no_space (s : String)
    (h : ∀ c ∈ s.data, c ≠ ' ') : normalizeSeg s = s := by
  unfold normalizeSeg
  have hd : s.data.map (fun c => if c = ' ' then '_' else c) = s.data := by
    apply map_id_of_eq_self
    intro c hc
    simp [h c hc]
  simp [hd]

lemma map_normalizeSeg_eq_self (segs : List String)
    (h : ∀ s ∈ segs, ∀ c ∈ s.data, c ≠ ' ') :
    segs.map normalizeSeg = segs := by
  apply map_id_of_eq_self
  intro s hs
  exact normalizeSeg_eq_self_of_no_space s (h s hs)

/-- C4: for a valid cache key the resolved root is the current cache root
when the package is null, and `join(currentRoot, package, str(version))`
when it is non-null; the full path is the root joined with all the
segments in order (exactly the given segments whenever they contain no
space, as the data-model invariant requires). -/
theorem c4_root_and_fullpath (cachedir : String) (fs : FS)
    (segs : List String) (p : String) (ver : PyVal)
    (hv : isIntStrFloatNone ver = true) (hne : segs ≠ [])
    (hsp : ∀ s ∈ segs, ∀ c ∈ s.data, c ≠ ' ') :
    ((mkCache cachedir fs (.list (segs.map PyVal.str)) PyVal.none ver).1.map
        CacheObj.root = .ok cachedir) ∧
    ((mkCache cachedir fs (.list (segs.map PyVal.str)) (.str p) ver).1.map
        CacheObj.root = .ok (osJoin cachedir [p, pyStr ver])) ∧
    ((mkCache cachedir fs (.list (segs.map PyVal.str)) PyVal.none ver).1.map
        CacheObj.pathname = .ok (osJoin cachedir segs)) ∧
    ((mkCache cachedir fs (.list (segs.map PyVal.str)) (.str p) ver).1.map
        CacheObj.pathname =
        .ok (osJoin (osJoin cachedir [p, pyStr ver]) segs)) := by
  obtain ⟨obj, heq, -, -, hroot, -, hpathname⟩ :=
    mkCache_str cachedir fs segs p ver hv hne
  obtain ⟨objN, heqN, -, -, hrootN, -, hpathnameN⟩ :=
    mkCache_none cachedir fs segs ver hne
  have hid := map_normalizeSeg_eq_self segs hsp
  rw [hid] at hpathname hpathnameN
  simp [heq, heqN, hroot, hrootN, hpathname, hpathnameN, Except.map]

/-- Witness for C4: `CacheEntry(["f.csv"], package=None)` resolves to
`/R/f.csv` directly under the root, and `CacheEntry(["f.csv"],
package="p", version=2)` resolves to `/R/p/2/f.csv`. -/
theorem c4_witness :
    ((mkCache "/R" FS0 (.list [.str "f.csv"]) PyVal.none (.int 2)).1.map
        CacheObj.pathname = .ok "/R/f.csv") ∧
    ((mkCache "/R" FS0 (.list [.str "f.csv"]) (.str "p") (.int 2)).1.map
        CacheObj.root = .ok "/R/p/2") ∧
    ((mkCache "/R" FS0 (.list [.str "f.csv"]) (.str "p") (.int 2)).1.map
        CacheObj.pathname = .ok "/R/p/2/f.csv") := by
  have h := c4_root_and_fullpath "/R" FS0 ["f.csv"] "p" (.int 2) rfl
    (by simp) (by decide)
  exact ⟨h.2.2.1, h.2.1, h.2.2.2⟩

/-- Character map applied to every segment character by the space
normalization. -/
def spaceToUnderscore (c : Char) : Char :=
  if c = ' ' then '_' else c

/-- C5: every constructed entry stores the segments with
`spaceToUnderscore` applied to each character — every space character
becomes an underscore and every other character is kept — and the segment
`"Santa Clara"` resolves to the component `"Santa_Clara"`. -/
theorem c5_space_normalization (cachedir : String) (fs : FS)
    (segs : List String) (ver : PyVal) (hne : segs ≠ []) :
    ((mkCache cachedir fs (.list (segs.map PyVal.str)) PyVal.none ver).1.map
        CacheObj.path = .ok (segs.map normalizeSeg)) ∧
    (∀ s : String, (normalizeSeg s).data = s.data.map spaceToUnderscore) ∧
    spaceToUnderscore ' ' = '_' ∧
    (∀ c : Char, c ≠ ' ' → spaceToUnderscore c = c) ∧
    normalizeSeg "Santa Clara" = "Santa_Clara" := by
  obtain ⟨objN, heqN, -, -, -, hpath, -⟩ :=
    mkCache_none cachedir fs segs ver hne
  refine ⟨?_, fun s => rfl, rfl, ?_, by decide⟩
  · simp [heqN, hpath, Except.map]
  · intro c hc
    simp [spaceToUnderscore, hc]

/-- Witness for C5 at the spec's example: the path
`["Santa Clara", "f.csv"]` is stored as `["Santa_Clara", "f.csv"]`. -/
theorem c5_witness :
    ((mkCache "/R" FS0 (.list [.str "Santa Clara", .str "f.csv"]) PyVal.none
        (.int 0)).1.map CacheObj.path = .ok ["Santa_Clara", "f.csv"]) ∧
    normalizeSeg "Santa Clara" = "Santa_Clara" := by
  have h := c5_space_normalization "/R" FS0 ["Santa Clara", "f.csv"] (.int 0)
    (by simp)
  exact ⟨h.1, h.2.2.2.2⟩

/-- C6: deleting a cache entry whose path names no existing file is a
no-op returning the filesystem unchanged when `ignore_errors` is true and
fails with `FileNotFoundError` when it is false; and whenever a delete
with `ignore_errors=true` succeeds, an immediately repeated delete with
`ignore_errors=true` succeeds as well (the entry denotes a file, not a
directory: its path is not among the directories). -/
theorem c6_delete_missing_and_idempotent (obj : CacheObj) (fs : FS)
    (hdir : obj.pathname ∉ fs.dirs) :
    (obj.pathname ∉ fs.files →
      cacheDelete obj fs true = .ok fs ∧
      cacheDelete obj fs false = .error .fileNotFoundError) ∧
    (∀ fs1, cacheDelete obj fs true = .ok fs1 →
      ∃ fs2, cacheDelete obj fs1 true = .ok fs2) := by
  constructor
  · intro hmiss
    simp [cacheDelete, osRemove, hmiss, hdir]
  · intro fs1 h1
    have hdirs1 : fs1.dirs = fs.dirs := by
      by_cases hmem : obj.pathname ∈ fs.files
      · simp [cacheDelete, osRemove, hmem] at h1
        rw [← h1]
      · simp [cacheDelete, osRemove, hmem, hdir] at h1
        rw [← h1]
    by_cases h2 : obj.pathname ∈ fs1.files
    · refine ⟨⟨fs1.dirs, fs1.files.erase obj.pathname⟩, ?_⟩
      simp [cacheDelete, osRemove, h2]
    · refine ⟨fs1, ?_⟩
      have : obj.pathname ∉ fs1.dirs := by
        rw [hdirs1]
        exact hdir
      simp [cacheDelete, osRemove, h2, this]

/-- A concrete cache entry object, `Cache(["f.csv"], package=None)`
resolved under the root `/R`. -/
def objW : CacheObj :=
  ⟨PyVal.none, VERSION, "/R", ["f.csv"], "f.csv", "/R/f.csv", "/R"⟩

/-- Filesystem in which `objW`'s file does not exist. -/
def fsW : FS := ⟨["/R"], []⟩

/-- Witness for C6 at a concrete missing file. -/
theorem c6_witness :
    cacheDelete objW fsW true = .ok fsW ∧
    cacheDelete objW fsW false = .error .fileNotFoundError := by
  have h := c6_delete_missing_and_idempotent objW fsW (by decide)
  exact h.1 (by decide)

/-- C7: `Cache.cachedir(newRoot)` returns the previously active root and
installs `newRoot`; a call with no arguments returns the current root and
leaves the state untouched; and an entry constructed after the swap
resolves its root from `newRoot` — as `newRoot` itself for a null
package, as `join(newRoot, p, str(version))` otherwise — with no
dependence on the prior root. -/
theorem c7_registry_swap (s : CacheState) (newRoot : String)
    (segs : List String) (p : String) (ver : PyVal)
    (hv : isIntStrFloatNone ver = true) (hne : segs ≠ []) :
    (cachedirFn s [newRoot] true).1 = s.cachedir ∧
    (cachedirFn s [newRoot] true).2.cachedir = newRoot ∧
    (∀ s1 : CacheState, cachedirFn s1 [] true = (s1.cachedir, s1)) ∧
    ((mkCacheS (cachedirFn s [newRoot] true).2
        (.list (segs.map PyVal.str)) PyVal.none ver).1.map CacheObj.root =
      .ok newRoot) ∧
    ((mkCacheS (cachedirFn s [newRoot] true).2
        (.list (segs.map PyVal.str)) (.str p) ver).1.map CacheObj.root =
      .ok (osJoin newRoot [p, pyStr ver])) := by
  have hset : cachedirFn s [newRoot] true =
      (s.cachedir, ⟨newRoot, mkdirs s.fs newRoot⟩) := rfl
  obtain ⟨objN, heqN, -, -, hrootN, -, -⟩ :=
    mkCache_none newRoot (mkdirs s.fs newRoot) segs ver hne
  obtain ⟨obj, heq, -, -, hroot, -, -⟩ :=
    mkCache_str newRoot (mkdirs s.fs newRoot) segs p ver hv hne
  refine ⟨rfl, rfl, fun s1 => rfl, ?_, ?_⟩
  · rw [hset]
    simp [mkCacheS, heqN, hrootN, Except.map]
  · rw [hset]
    simp [mkCacheS, heq, hroot, Except.map]

/-- Witness for C7: after swapping the root from `/old` to `/new`, the
old root is returned and `Cache(["f.csv"], "p", 2)` resolves under
`/new/p/2`, not under `/old`. -/
theorem c7_witness :
    (cachedirFn ⟨"/old", FS0⟩ ["/new"] true).1 = "/old" ∧
    ((mkCacheS (cachedirFn ⟨"/old", FS0⟩ ["/new"] true).2
        (.list [.str "f.csv"]) (.str "p") (.int 2)).1.map CacheObj.root =
      .ok "/new/p/2") := by
  have h := c7_registry_swap ⟨"/old", FS0⟩ "/new" ["f.csv"] "p" (.int 2)
    rfl (by simp)
  exact ⟨h.1, h.2.2.2.2⟩

lemma fixed3_1000 (n : Nat) :
    fixed3 n 1000 = toString (n / 1000) ++ "." ++ pad3 (n % 1000) := by
  have h1 : n * 1000 / 1000 = n := by omega
  have h2 : n * 1000 % 1000 = 0 := by omega
  simp [fixed3, roundHalfEven, h1, h2]

/-- C8: the size command formats a byte count with decimal (1000-based)
thresholds — below 1000 as whole bytes with a `B` suffix, below 1e6 as
kilobytes with exactly three decimals (the exact quotient and remainder
by 1000), below 1e9 as megabytes, below 1e12 as gigabytes, and otherwise
terabytes — and in particular 500 formats as `"500 B"` and 2500000 as
`"2.500 MB"`. -/
theorem c8_size_format (n : Nat) :
    (n < 1000 → formatSize n = toString n ++ " B") ∧
    (1000 ≤ n → n < 1000000 →
      formatSize n = toString (n / 1000) ++ "." ++ pad3 (n % 1000) ++ " kB") ∧
    (1000000 ≤ n → n < 1000000000 →
      formatSize n = fixed3 n 1000000 ++ " MB") ∧
    (1000000000 ≤ n → n < 1000000000000 →
      formatSize n = fixed3 n 1000000000 ++ " GB") ∧
    (1000000000000 ≤ n → formatSize n = fixed3 n 1000000000000 ++ " TB") ∧
    formatSize 500 = "500 B" ∧
    formatSize 2500000 = "2.500 MB" := by
  refine ⟨?_, ?_, ?_, ?_, ?_, by rfl, by rfl⟩
  · intro h
    simp [formatSize, h]
  · intro h1 h2
    have a : ¬ n < 1000 := by omega
    simp [formatSize, a, h2, fixed3_1000]
  · intro h1 h2
    have a : ¬ n < 1000 := by omega
    have b : ¬ n < 1000000 := by omega
    simp [formatSize, a, b, h2]
  · intro h1 h2
    have a : ¬ n < 1000 := by omega
    have b : ¬ n < 1000000 := by omega
    have c : ¬ n < 1000000000 := by omega
    simp [formatSize, a, b, c, h2]
  · intro h1
    have a : ¬ n < 1000 := by omega
    have b : ¬ n < 1000000 := by omega
    have c : ¬ n < 1000000000 := by omega
    have d : ¬ n < 1000000000000 := by omega
    simp [formatSize, a, b, c, d]

/-- Witness for C8 at the two example byte counts of the specification. -/
theorem c8_witness :
    formatSize 2500000 = "2.500 MB" ∧ formatSize 500 = "500 B" := by
  constructor
  · have h := (c8_size_format 2500000).2.2.1 (by norm_num) (by norm_num)
    rw [h]
    rfl
  · have h := (c8_size_format 500).1 (by norm_num)
    rw [h]
    rfl

/-- C9: with the package and version arguments left at their defaults
(`PACKAGE = "cache"`, `VERSION = 0`) a non-empty path resolves under
`join(currentRoot, "cache", "0", *path)` (path segments taken after the
space normalization every segment undergoes). -/
theorem c9_defaults (cachedir : String) (fs : FS) (segs : List String)
    (hne : segs ≠ []) :
    ((mkCache cachedir fs (.list (segs.map PyVal.str)) PACKAGE VERSION).1.map
        CacheObj.root = .ok (osJoin cachedir ["cache", "0"])) ∧
    ((mkCache cachedir fs (.list (segs.map PyVal.str)) PACKAGE VERSION).1.map
        CacheObj.pathname =
      .ok (osJoin cachedir (["cache", "0"] ++ segs.map normalizeSeg))) := by
  obtain ⟨obj, heq, -, -, hroot, -, hpathname⟩ :=
    mkCache_str cachedir fs segs "cache" (.int 0) rfl hne
  have hps : pyStr (.int 0) = "0" := rfl
  simp [PACKAGE, VERSION, heq, hroot, hpathname, hps, Except.map]
  rfl

/-- Witness for C9: `Cache(["a", "f.csv"])` resolves to
`/R/cache/0/a/f.csv`. -/
theorem c9_witness :
    ((mkCache "/R" FS0 (.list [.str "a", .str "f.csv"]) PACKAGE VERSION).1.map
        CacheObj.pathname = .ok "/R/cache/0/a/f.csv") := by
  have h := c9_defaults "/R" FS0 ["a", "f.csv"] (by simp)
  exact h.2

end EudoxysCache
